import Mathlib

/-!
Shallow embedding of the host I/O subsystem of `cortex-m-semihosting`
(`src/io.rs`, `src/export.rs`).  The host side is modelled as an oracle:
each syscall consumes the next entry of a list of host responses, and every
function additionally returns the trace of syscalls it issued so that
properties about "how often" and "with which arguments" the host is crossed
can be stated.
-/

namespace Semihosting

/-- A record of one host OPEN syscall, as issued by `open_streams`
(`io.rs` lines 33-34): the path bytes, the access-mode flag, and the length
argument passed in the argument block. -/
structure OpenCall where
  path : List Char
  mode : Nat
  len : Nat
  deriving DecidableEq

/-- The special terminal path `":tt"` (`io.rs` line 30), as its list of
characters. -/
def ttPath : List Char := [':', 't', 't']

/-- The two stream-handle slots `STDOUT` / `STDERR` (`io.rs` lines 8-9).
Both are `isize` statics initialised to `-1`. -/
structure Streams where
  stdout : Int
  stderr : Int
  deriving DecidableEq

/-- The initial slot state: both statics start at `-1` (`io.rs` lines 8-9). -/
def initialStreams : Streams := ⟨-1, -1⟩

/-- `get_stdout` (`io.rs` lines 17-20): a read of the `STDOUT` slot. -/
def get_stdout (s : Streams) : Int := s.stdout

/-- `get_stderr` (`io.rs` lines 22-25): a read of the `STDERR` slot. -/
def get_stderr (s : Streams) : Int := s.stderr

/-- `open_streams` (`io.rs` lines 28-47).  The two host OPEN results
(`syscall!(OPEN, …) as isize`) are supplied by the oracle as `r1` (stdout,
mode 4) and `r2` (stderr, mode 8).  Returns the new slot state (both results
stored unconditionally by the two `write_volatile` calls), the `Result`
(`true` for `Ok(())`, which holds iff neither handle is negative), and the
trace of OPEN syscalls issued. -/
def open_streams (r1 r2 : Int) (_s : Streams) : Streams × Bool × List OpenCall :=
  (⟨r1, r2⟩, !(decide (r1 < 0) || decide (r2 < 0)),
   [⟨ttPath, 4, ttPath.length⟩, ⟨ttPath, 8, ttPath.length⟩])

/-- Several sequential calls of `open_streams`, threading the slot state and
collecting the OPEN syscall traces.  Each list entry supplies the host's two
OPEN results for one call. -/
def runOpenStreams (s : Streams) : List (Int × Int) → Streams × List OpenCall
  | [] => (s, [])
  | (r1, r2) :: rest =>
    let out := open_streams r1 r2 s
    let next := runOpenStreams out.1 rest
    (next.1, out.2.2 ++ next.2)

/-- The `while !buffer.is_empty()` loop of `write_all` (`io.rs` lines 56-70).
`responses` is the oracle of host WRITE results (the `usize` returned by
`syscall!(WRITE, fd, buffer.as_ptr(), buffer.len())`), consumed one per
syscall.  The result is `none` if the oracle is exhausted while the loop
still runs, otherwise `some (ok, trace, acc)` where `ok` is the `Result`
(`true` for `Ok(())`), `trace` lists the buffer argument of each WRITE
syscall issued, and `acc` is the total number of bytes acknowledged by the
host (each syscall on buffer `b` answered with residual `n` acknowledges
`b.length - n` bytes; the response `0` acknowledges all of `b`).
The three match arms of the source appear in order: `0 => Ok`,
`n if n <= buffer.len() && n > 0` re-slices to the last `n` bytes
(`from_raw_parts(ptr + (len - n), n)`, i.e. `drop (len - n)`), and the
catch-all returns `Err`. -/
def writeLoop : List Nat → List Nat → Option (Bool × List (List Nat) × Nat)
  | buffer, [] => if buffer = [] then some (true, [], 0) else none
  | buffer, n :: rest =>
    if buffer = [] then some (true, [], 0)
    else if n = 0 then some (true, [buffer], buffer.length)
    else if n ≤ buffer.length then
      match writeLoop (buffer.drop (buffer.length - n)) rest with
      | none => none
      | some (b, tr, acc) => some (b, buffer :: tr, (buffer.length - n) + acc)
    else some (false, [buffer], 0)

/-- `write_all` (`io.rs` lines 51-73).  A negative `fd` returns `Err(())`
immediately, with an empty syscall trace; otherwise the drain loop runs. -/
def write_all (fd : Int) (buffer : List Nat) (responses : List Nat) :
    Option (Bool × List (List Nat) × Nat) :=
  if fd < 0 then some (false, [], 0) else writeLoop buffer responses

/-- A valid residual-count sequence for a buffer of length `len`, in the
sense of spec property P2: each count is positive and no greater than the
remaining length (which the count itself then becomes), and the sequence
ends in a terminal `0`. -/
def validSeq : Nat → List Nat → Bool
  | _, [] => false
  | len, n :: rest =>
    if n = 0 then rest.isEmpty
    else decide (n ≤ len) && validSeq n rest

/-- Modelled from the spec: `hio::hstdout()`, called by `export.rs` line 14.
The module `hio` is referenced by `export.rs` but its source is not in the
crate snapshot.  Per the spec (§4.2 lazy-singleton variant, §7 `OpenFailed`),
the lazy open performs one OPEN syscall for the output stream and fails
exactly when the host reports a negative descriptor; on success the handle
is handed back.  `r` is the host's OPEN result; `none` models `Err`. -/
def hio_hstdout (r : Int) : Option Int := if r < 0 then none else some r

/-- Modelled from the spec: `hio::hstderr()`, called by `export.rs` line 44;
same contract as `hio_hstdout` for the error-output stream. -/
def hio_hstderr (r : Int) : Option Int := if r < 0 then none else some r

/-- One call of the lazy-open portion of `hstdout_str` (`export.rs` lines
12-18): inside `interrupt::free`, if the `HSTDOUT` slot is `None` the open is
attempted (`HSTDOUT = Some(hio::hstdout()?)`); on `Err` the `?` leaves the
slot unset.  The whole closure runs with interrupts suppressed, so distinct
calls are serialised and modelled sequentially.  Returns the new slot state,
the handle observed by the caller (`none` when the open failed), and the
number of OPEN syscalls issued by this call (`0` or `1`). -/
def lazyEnsureStdout (s : Option Int) (r : Int) : Option Int × Option Int × Nat :=
  match s with
  | some h => (some h, some h, 0)
  | none =>
    match hio_hstdout r with
    | none => (none, none, 1)
    | some h => (some h, some h, 1)

/-- `N` sequential calls of the lazy-open path, one oracle OPEN result per
call (unused when the slot is already set).  Returns the handle observed by
each caller and the total number of OPEN syscalls issued. -/
def lazyRun : Option Int → List Int → List (Option Int) × Nat
  | _, [] => ([], 0)
  | s, r :: rs =>
    let step := lazyEnsureStdout s r
    let rest := lazyRun step.1 rs
    (step.2.1 :: rest.1, step.2.2 + rest.2)

/-- The atomic actions appearing in one call of `hstdout_str`
(`export.rs` lines 11-23). -/
inductive Ev
  /-- `HSTDOUT.is_none()` (line 13) -/
  | testSlot
  /-- the OPEN performed inside `hio::hstdout()` (line 14) -/
  | openCall
  /-- `HSTDOUT = Some(…)` (line 14) -/
  | storeResult
  /-- `HSTDOUT.as_mut().unwrap()` (line 17) -/
  | handBack
  /-- the delegated `write_str(s)` that sends the caller's bytes to the
  host (line 17) -/
  | writeDelegate
  /-- `error("hstdout")` (line 21), the fatal abort path -/
  | fatalCall
  deriving DecidableEq

/-- The sequence of atomic actions of one `hstdout_str` call
(`export.rs` lines 11-23), each paired with `true` iff it executes inside
the `interrupt::free` closure (interrupts/preemption suppressed).
`slotSet` says whether `HSTDOUT` was already `Some`, `openOk` whether
`hio::hstdout()` succeeds (irrelevant when `slotSet`), `writeOk` whether the
delegated `write_str` succeeds.  The test, conditional open, store, hand-back
and delegated write all occur inside the closure (lines 12-18); only the
`error(…)` call (lines 20-22) runs after the closure has returned. -/
def hstdout_str_trace (slotSet openOk writeOk : Bool) : List (Ev × Bool) :=
  [(Ev.testSlot, true)] ++
  (if slotSet then [] else
    (Ev.openCall, true) :: (if openOk then [(Ev.storeResult, true)] else [])) ++
  (if slotSet || openOk then [(Ev.handBack, true), (Ev.writeDelegate, true)] else []) ++
  (if (if slotSet || openOk then !writeOk else true) then [(Ev.fatalCall, false)] else [])

/-- How one façade entry point ends: a plain `()` return, or a fatal
process-terminating abort carrying the panic message. -/
inductive Outcome
  | ret
  | fatal (msg : String)
  deriving DecidableEq

/-- `error` (`export.rs` lines 69-72): `panic!("failed to print to {}", label)`,
a fatal, process-terminating abort. -/
def error (label : String) : Outcome := Outcome.fatal ("failed to print to " ++ label)

/-- `hstdout_str` (`export.rs` lines 11-23).  `s` is the `HSTDOUT` slot, `r`
the oracle OPEN result used if the slot is unset (via `hio_hstdout`, modelled
from the spec), and `writeOk` the oracle result of the delegated
`write_str` (its body lives in the missing `hio` module; per the spec it is
fallible).  If the open fails, `?` makes the closure return `Err` and the
write is not attempted.  Any `Err` from the closure triggers
`error("hstdout")`; otherwise the function returns `()`. -/
def hstdout_str_run (s : Option Int) (r : Int) (writeOk : Bool) : Option Int × Outcome :=
  match s with
  | some h => (some h, if writeOk then Outcome.ret else error "hstdout")
  | none =>
    match hio_hstdout r with
    | none => (none, error "hstdout")
    | some h => (some h, if writeOk then Outcome.ret else error "hstdout")

/-- `hstdout_fmt` (`export.rs` lines 25-37): identical control flow to
`hstdout_str` with the delegated `write_fmt(args)` in place of `write_str`. -/
def hstdout_fmt_run (s : Option Int) (r : Int) (writeOk : Bool) : Option Int × Outcome :=
  match s with
  | some h => (some h, if writeOk then Outcome.ret else error "hstdout")
  | none =>
    match hio_hstdout r with
    | none => (none, error "hstdout")
    | some h => (some h, if writeOk then Outcome.ret else error "hstdout")

/-- `hstderr_str` (`export.rs` lines 41-53): the stderr twin of
`hstdout_str`, using the `HSTDERR` slot, `hio::hstderr()` and
`error("hstderr")`. -/
def hstderr_str_run (s : Option Int) (r : Int) (writeOk : Bool) : Option Int × Outcome :=
  match s with
  | some h => (some h, if writeOk then Outcome.ret else error "hstderr")
  | none =>
    match hio_hstderr r with
    | none => (none, error "hstderr")
    | some h => (some h, if writeOk then Outcome.ret else error "hstderr")

/-- `hstderr_fmt` (`export.rs` lines 55-67): the stderr twin of
`hstdout_fmt`. -/
def hstderr_fmt_run (s : Option Int) (r : Int) (writeOk : Bool) : Option Int × Outcome :=
  match s with
  | some h => (some h, if writeOk then Outcome.ret else error "hstderr")
  | none =>
    match hio_hstderr r with
    | none => (none, error "hstderr")
    | some h => (some h, if writeOk then Outcome.ret else error "hstderr")

/-! ## Helper lemmas about the write-drain loop -/

theorem writeLoop_step (buffer : List Nat) (n : Nat) (rest : List Nat)
    (hb : buffer ≠ []) (hn0 : n ≠ 0) (hn : n ≤ buffer.length) :
    writeLoop buffer (n :: rest) =
      (writeLoop (buffer.drop (buffer.length - n)) rest).map
        (fun x => (x.1, buffer :: x.2.1, (buffer.length - n) + x.2.2)) := by
  simp only [writeLoop, if_neg hb, if_neg hn0, if_pos hn]
  cases writeLoop (buffer.drop (buffer.length - n)) rest with
  | none => rfl
  | some x =>
    obtain ⟨b, tr, acc⟩ := x
    rfl

theorem writeLoop_success_acc :
    ∀ (responses buffer : List Nat) (tr : List (List Nat)) (acc : Nat),
      writeLoop buffer responses = some (true, tr, acc) → acc = buffer.length := by
  intro responses
  induction responses with
  | nil =>
    intro buffer tr acc h
    by_cases hb : buffer = []
    · subst hb
      simp [writeLoop] at h
      obtain ⟨h1, h2⟩ := h
      simp only [List.length_nil]
      omega
    · simp [writeLoop, hb] at h
  | cons n rest IH =>
    intro buffer tr acc h
    by_cases hb : buffer = []
    · subst hb
      simp [writeLoop] at h
      obtain ⟨h1, h2⟩ := h
      simp only [List.length_nil]
      omega
    · by_cases hn0 : n = 0
      · subst hn0
        simp [writeLoop, hb] at h
        obtain ⟨h1, h2⟩ := h
        omega
      · by_cases hn : n ≤ buffer.length
        · rw [writeLoop_step buffer n rest hb hn0 hn] at h
          cases hwl : writeLoop (buffer.drop (buffer.length - n)) rest with
          | none => rw [hwl] at h; exact absurd h (by simp)
          | some x =>
            obtain ⟨b, tr', acc'⟩ := x
            rw [hwl] at h
            simp only [Option.map_some', Option.some_inj, Prod.mk.injEq] at h
            obtain ⟨hbtrue, _, hacc⟩ := h
            subst hbtrue
            have hlen := IH (buffer.drop (buffer.length - n)) tr' acc' hwl
            rw [List.length_drop] at hlen
            omega
        · simp [writeLoop, hb, hn0, hn] at h

theorem writeLoop_valid_drain :
    ∀ (responses buffer : List Nat), validSeq buffer.length responses = true →
      ∃ tr, writeLoop buffer responses = some (true, tr, buffer.length) := by
  intro responses
  induction responses with
  | nil =>
    intro buffer h
    simp [validSeq] at h
  | cons n rest IH =>
    intro buffer h
    by_cases hb : buffer = []
    · subst hb
      exact ⟨[], by simp [writeLoop]⟩
    · by_cases hn0 : n = 0
      · subst hn0
        exact ⟨[buffer], by simp [writeLoop, hb]⟩
      · simp only [validSeq, if_neg hn0, Bool.and_eq_true, decide_eq_true_eq] at h
        obtain ⟨hn, hv⟩ := h
        have hlen : (buffer.drop (buffer.length - n)).length = n := by
          rw [List.length_drop]; omega
        obtain ⟨tr', htr'⟩ := IH (buffer.drop (buffer.length - n)) (by rw [hlen]; exact hv)
        refine ⟨buffer :: tr', ?_⟩
        rw [writeLoop_step buffer n rest hb hn0 hn, htr', Option.map_some']
        have : buffer.length - n + (buffer.drop (buffer.length - n)).length =
            buffer.length := by rw [hlen]; omega
        rw [this]

theorem writeLoop_replicate_none (buffer : List Nat) (hb : buffer ≠ []) :
    ∀ k, writeLoop buffer (List.replicate k buffer.length) = none := by
  intro k
  induction k with
  | zero => simp [writeLoop, hb]
  | succ k IH =>
    have hn0 : buffer.length ≠ 0 := by
      intro h
      exact hb (List.length_eq_zero.mp h)
    rw [List.replicate_succ,
      writeLoop_step buffer buffer.length _ hb hn0 (le_refl _)]
    simp [Nat.sub_self, IH]

/-! ## Claim theorems -/

/-- C1: for every non-negative handle and every host WRITE response sequence
of valid residual counts ending in `0`, `write_all` acknowledges exactly the
original buffer length in total and returns success; and whenever
`write_all` returns success (for any response sequence), the acknowledged
total equals the full buffer length — it never succeeds while bytes remain
unsent. -/
theorem C1_write_all_drain_complete (fd : Int) (buffer responses : List Nat)
    (hfd : 0 ≤ fd) (hv : validSeq buffer.length responses = true) :
    (∃ tr, write_all fd buffer responses = some (true, tr, buffer.length)) ∧
    (∀ rs tr acc, write_all fd buffer rs = some (true, tr, acc) →
      acc = buffer.length) := by
  have hfd' : ¬ fd < 0 := not_lt.mpr hfd
  constructor
  · obtain ⟨tr, htr⟩ := writeLoop_valid_drain responses buffer hv
    exact ⟨tr, by rw [write_all, if_neg hfd']; exact htr⟩
  · intro rs tr acc h
    rw [write_all, if_neg hfd'] at h
    exact writeLoop_success_acc rs buffer tr acc h

theorem C1_witness :
    (0:Int) ≤ 1 ∧ validSeq ([10, 20, 30, 40, 50] : List Nat).length [3, 1, 0] = true ∧
    ∃ tr, write_all 1 [10, 20, 30, 40, 50] [3, 1, 0] = some (true, tr, 5) := by
  refine ⟨by decide, by decide, ?_⟩
  have h := (C1_write_all_drain_complete 1 [10, 20, 30, 40, 50] [3, 1, 0]
    (by decide) (by decide)).1
  simpa using h

/-- C2: on a positive residual `n` no greater than the remaining length, the
buffer view is advanced to exactly the last `n` bytes of the range just
attempted before the syscall is reissued; for any 14-byte buffer with host
responses 9 then 0, `write_all` succeeds after exactly two syscalls and the
second syscall's buffer argument is the last 9 bytes of the original. -/
theorem C2_write_all_tail_reslice (fd : Int) (buffer : List Nat)
    (hfd : 0 ≤ fd) (hlen : buffer.length = 14) :
    (∀ (b : List Nat) (n : Nat) (rest : List Nat), b ≠ [] → n ≠ 0 → n ≤ b.length →
      writeLoop b (n :: rest) =
        (writeLoop (b.drop (b.length - n)) rest).map
          (fun x => (x.1, b :: x.2.1, (b.length - n) + x.2.2)) ∧
      (b.drop (b.length - n)).length = n ∧
      b.take (b.length - n) ++ b.drop (b.length - n) = b) ∧
    write_all fd buffer [9, 0] = some (true, [buffer, buffer.drop 5], 14) ∧
    (buffer.drop 5).length = 9 ∧ buffer.take 5 ++ buffer.drop 5 = buffer := by
  have hb : buffer ≠ [] := by
    intro h; rw [h] at hlen; simp at hlen
  have h9 : (9:Nat) ≤ buffer.length := by omega
  have hd5 : buffer.length - 9 = 5 := by omega
  have hdlen : (buffer.drop 5).length = 9 := by rw [List.length_drop]; omega
  have hdne : buffer.drop 5 ≠ [] := by
    intro h; rw [h] at hdlen; simp at hdlen
  refine ⟨?_, ?_, hdlen, List.take_append_drop 5 buffer⟩
  · intro b n rest hb' hn0 hn
    refine ⟨writeLoop_step b n rest hb' hn0 hn, ?_, List.take_append_drop _ _⟩
    rw [List.length_drop]; omega
  · have hstep := writeLoop_step buffer 9 [0] hb (by decide) h9
    rw [hd5] at hstep
    have hinner : writeLoop (buffer.drop 5) [0] =
        some (true, [buffer.drop 5], (buffer.drop 5).length) := by
      simp [writeLoop, hdne]
    rw [write_all, if_neg (not_lt.mpr hfd), hstep, hinner, Option.map_some']
    simp [hdlen]

theorem C2_witness :
    (0:Int) ≤ 1 ∧ ([0, 1, 2, 3, 4, 5, 6, 7, 8, 9, 10, 11, 12, 13] : List Nat).length = 14 ∧
    write_all 1 [0, 1, 2, 3, 4, 5, 6, 7, 8, 9, 10, 11, 12, 13] [9, 0] =
      some (true, [[0, 1, 2, 3, 4, 5, 6, 7, 8, 9, 10, 11, 12, 13],
        [5, 6, 7, 8, 9, 10, 11, 12, 13]], 14) := by
  refine ⟨by decide, by decide, ?_⟩
  have h := (C2_write_all_tail_reslice 1 [0, 1, 2, 3, 4, 5, 6, 7, 8, 9, 10, 11, 12, 13]
    (by decide) (by decide)).2.1
  simpa using h

/-- C3: for every buffer and every negative handle, `write_all` fails
immediately (`Err`) with an empty syscall trace — the host WRITE syscall is
never invoked. -/
theorem C3_negative_handle (fd : Int) (hfd : fd < 0)
    (buffer responses : List Nat) :
    write_all fd buffer responses = some (false, [], 0) := by
  rw [write_all, if_pos hfd]

theorem C3_witness :
    (-1:Int) < 0 ∧ write_all (-1) [1, 2, 3] [0] = some (false, [], 0) :=
  ⟨by decide, C3_negative_handle (-1) (by decide) [1, 2, 3] [0]⟩

/-- C4: for a non-negative handle and non-empty buffer, a host WRITE
response strictly greater than the remaining length makes `write_all` return
`Err` after that single syscall; the loop halts and no further syscall is
issued (the trace is exactly the one attempted buffer, whatever responses
would follow). -/
theorem C4_malformed_response (fd : Int) (buffer : List Nat) (n : Nat)
    (rest : List Nat) (hfd : 0 ≤ fd) (hb : buffer ≠ []) (hn : buffer.length < n) :
    write_all fd buffer (n :: rest) = some (false, [buffer], 0) := by
  have hn0 : n ≠ 0 := by omega
  rw [write_all, if_neg (not_lt.mpr hfd)]
  simp only [writeLoop, if_neg hb, if_neg hn0, if_neg (not_le.mpr hn)]

theorem C4_witness :
    (0:Int) ≤ 0 ∧ ([7] : List Nat) ≠ [] ∧ ([7] : List Nat).length < 2 ∧
    write_all 0 [7] [2, 0] = some (false, [[7]], 0) :=
  ⟨by decide, by decide, by decide,
    C4_malformed_response 0 [7] 2 [0] (by decide) (by decide) (by decide)⟩

/-- C10: a host WRITE response equal to the remaining length (zero bytes
accepted) is treated as a valid partial write: the syscall is reissued over
the identical unchanged byte range with nothing acknowledged, and if the
host keeps answering this way the loop never completes — `write_all`
completes only if the host eventually reports residual 0. -/
theorem C10_zero_progress (fd : Int) (buffer : List Nat) (rest : List Nat)
    (hfd : 0 ≤ fd) (hb : buffer ≠ []) :
    write_all fd buffer (buffer.length :: rest) =
      (write_all fd buffer rest).map (fun x => (x.1, buffer :: x.2.1, x.2.2)) ∧
    (∀ k, write_all fd buffer (List.replicate k buffer.length) = none) := by
  have hfd' : ¬ fd < 0 := not_lt.mpr hfd
  have hn0 : buffer.length ≠ 0 := by
    intro h
    exact hb (List.length_eq_zero.mp h)
  constructor
  · rw [write_all, if_neg hfd', write_all, if_neg hfd',
      writeLoop_step buffer buffer.length rest hb hn0 (le_refl _)]
    simp [Nat.sub_self]
  · intro k
    rw [write_all, if_neg hfd']
    exact writeLoop_replicate_none buffer hb k

theorem C10_witness :
    (0:Int) ≤ 1 ∧ ([1, 2] : List Nat) ≠ [] ∧
    write_all 1 [1, 2] [2, 0] = some (true, [[1, 2], [1, 2]], 2) ∧
    write_all 1 [1, 2] [2, 2] = none := by
  have h := C10_zero_progress 1 [1, 2] [0] (by decide) (by decide)
  refine ⟨by decide, by decide, ?_, ?_⟩
  · have h1 := h.1
    simpa using h1
  · have h2 := h.2 2
    simpa using h2

/-- C5: `open_streams` stores both host OPEN results unconditionally
(including negative ones) and returns `Ok` exactly when neither handle is
negative; with host results 3 (stdout) and -1 (stderr) it fails while
`get_stdout` afterwards returns 3 and `get_stderr` returns -1. -/
theorem C5_open_streams_stores (r1 r2 : Int) (s : Streams) :
    get_stdout (open_streams r1 r2 s).1 = r1 ∧
    get_stderr (open_streams r1 r2 s).1 = r2 ∧
    (open_streams r1 r2 s).2.1 = decide (0 ≤ r1 ∧ 0 ≤ r2) ∧
    get_stdout (open_streams 3 (-1) s).1 = 3 ∧
    get_stderr (open_streams 3 (-1) s).1 = -1 ∧
    (open_streams 3 (-1) s).2.1 = false := by
  refine ⟨rfl, rfl, ?_, rfl, rfl, rfl⟩
  simp only [open_streams]
  by_cases h1 : r1 < 0 <;> by_cases h2 : r2 < 0 <;>
    simp [h1, h2, not_lt.mp, le_of_not_lt]

theorem lazyRun_set (h : Int) :
    ∀ rs, lazyRun (some h) rs = (List.replicate rs.length (some h), 0) := by
  intro rs
  induction rs with
  | nil => rfl
  | cons r rs IH => simp [lazyRun, lazyEnsureStdout, IH, List.replicate_succ]

/-- C6 counterexample: two sequential `open_streams` calls in one process
issue the OPEN for the stdout stream twice (two mode-4 OPEN syscalls in the
combined trace), so the OPEN operation for a stream is not attempted at most
once per process lifetime. -/
theorem C6_counterexample :
    ¬ (((runOpenStreams initialStreams [(1, 2), (1, 2)]).2.filter
        (fun c => decide (c.mode = 4))).length ≤ 1) := by
  decide

/-- C6 (amended): along the lazy-open path, when the first call's OPEN
succeeds (non-negative handle `r`), exactly one OPEN syscall is performed in
total no matter how many calls follow, and every caller observes the same
handle `r`.  (The calls are serialised by `interrupt::free`, hence modelled
sequentially.) -/
theorem C6_lazy_open_once (r : Int) (rs : List Int) (hr : 0 ≤ r) :
    lazyRun none (r :: rs) = (List.replicate (rs.length + 1) (some r), 1) := by
  have hopen : hio_hstdout r = some r := by
    simp [hio_hstdout, not_lt.mpr hr]
  simp [lazyRun, lazyEnsureStdout, hopen, lazyRun_set, List.replicate_succ]

theorem C6_witness :
    (0:Int) ≤ 5 ∧ lazyRun none [5, 7, 9] = ([some 5, some 5, some 5], 1) := by
  refine ⟨by decide, ?_⟩
  have h := C6_lazy_open_once 5 [7, 9] (by decide)
  simpa [List.replicate] using h

/-- C7 counterexample: at a concrete input (slot already initialised, write
succeeding) the delegated write of the caller's bytes appears in the trace
of `hstdout_str` paired with `true` (inside the interrupt-suppressed
region), and never paired with `false` — contradicting the claim that the
suppression covers only test/open/store/hand-back and that the delegated
write executes outside the suppressed region. -/
theorem C7_counterexample :
    (Ev.writeDelegate, true) ∈ hstdout_str_trace true true true ∧
    (Ev.writeDelegate, false) ∉ hstdout_str_trace true true true := by
  decide

/-- C7 (amended): the suppression scope of the lazy-singleton path covers
test-slot, conditionally-open, store-result, hand-back *and* the delegated
write of the caller's bytes; only the fatal-error call executes outside the
suppressed region. -/
theorem C7_suppression_scope (slotSet openOk writeOk : Bool) (e : Ev) (b : Bool)
    (h : (e, b) ∈ hstdout_str_trace slotSet openOk writeOk) :
    b = true ↔ e ≠ Ev.fatalCall := by
  revert h
  cases slotSet <;> cases openOk <;> cases writeOk <;> cases e <;> cases b <;> decide

theorem C7_witness :
    (Ev.writeDelegate, true) ∈ hstdout_str_trace true true true ∧
    (true = true ↔ Ev.writeDelegate ≠ Ev.fatalCall) :=
  ⟨by decide, C7_suppression_scope true true true Ev.writeDelegate true (by decide)⟩

/-- C8 counterexample: the path token `":tt"` that `open_streams` passes to
both OPEN syscalls has three characters, not two. -/
theorem C8_counterexample :
    (open_streams 1 2 initialStreams).2.2.map OpenCall.path = [ttPath, ttPath] ∧
    ¬ ttPath.length = 2 := by
  decide

/-- C8 (amended): `open_streams` issues the host OPEN operation exactly
twice, both times with the literal three-character path token `":tt"` and
its length 3, with access-mode flag 4 for the primary output stream and 8
for the error-output stream. -/
theorem C8_open_args (r1 r2 : Int) (s : Streams) :
    (open_streams r1 r2 s).2.2 = [⟨ttPath, 4, 3⟩, ⟨ttPath, 8, 3⟩] ∧
    ttPath.length = 3 :=
  ⟨rfl, rfl⟩

/-- C9: none of the four façade entry points ever returns an error value to
its caller: each run either ends in a plain return (open succeeded, or the
slot was already set, and the delegated write succeeded) or in the fatal
process-terminating abort whose message names the stream that failed
("hstdout" for the stdout entry points, "hstderr" for the stderr ones). -/
theorem C9_facade_abort_on_failure (s : Option Int) (r : Int) (w : Bool) :
    ((hstdout_str_run s r w).2 =
      if (s = none ∧ r < 0) ∨ w = false then
        Outcome.fatal "failed to print to hstdout" else Outcome.ret) ∧
    ((hstdout_fmt_run s r w).2 =
      if (s = none ∧ r < 0) ∨ w = false then
        Outcome.fatal "failed to print to hstdout" else Outcome.ret) ∧
    ((hstderr_str_run s r w).2 =
      if (s = none ∧ r < 0) ∨ w = false then
        Outcome.fatal "failed to print to hstderr" else Outcome.ret) ∧
    ((hstderr_fmt_run s r w).2 =
      if (s = none ∧ r < 0) ∨ w = false then
        Outcome.fatal "failed to print to hstderr" else Outcome.ret) := by
  have hout : error "hstdout" = Outcome.fatal "failed to print to hstdout" := rfl
  have herr : error "hstderr" = Outcome.fatal "failed to print to hstderr" := rfl
  cases s with
  | some h =>
    cases w <;>
      simp [hstdout_str_run, hstdout_fmt_run, hstderr_str_run, hstderr_fmt_run,
        hout, herr]
  | none =>
    by_cases hr : r < 0 <;> cases w <;>
      simp [hstdout_str_run, hstdout_fmt_run, hstderr_str_run, hstderr_fmt_run,
        hio_hstdout, hio_hstderr, hr, hout, herr]

end Semihosting
